import Mathlib

/-!
Shallow embedding of the booking system's availability & conflict engine.

Sources:
- src/src/services/barberService.ts   (ConflictDetectionService)
- src/src/services/bookingService.ts  (BookingService)
- src/unnamed/part_014                (CalendarService)
- src/src/types/index.ts              (time utilities: timeToMinutes,
  minutesToTime, isTimeRangeOverlap, getAvailableTimeSlots)

Modelling conventions:
- JavaScript `Date` values are modelled as absolute minutes since an epoch
  (`Int`).  All comparisons in the source (`<`, `>`, `isWithinInterval`,
  `addMinutes`) are order/translation-compatible with this view, and every
  time the source manipulates is minute-granular.
- The calendar day of an absolute time is its floor-division by 1440 and the
  weekday (source: `Date.getDay()`) is the day index modulo 7; this is
  faithful up to a fixed epoch offset, which no claim depends on.
- `prisma.*.findFirst/findMany` over an already-fetched store become
  `List.find?` / `List.filter` over an explicit database state `DB`.
- Fallible parsing (`timeToMinutes` on a malformed string yields `NaN` in
  JS) is modelled with `Option`; each use site reproduces the behaviour the
  `NaN` would induce there (loop guards comparing with `NaN` are false, so
  the slot loop yields `[]`).
-/

namespace BookingSystem

/-- Booking record (table `booking`).  `startTime`/`endTime` are absolute
minutes; `status` is one of "confirmed" | "cancelled" | "completed". -/
structure Booking where
  id : String
  storeId : String
  barberId : String
  serviceId : String
  startTime : Int
  endTime : Int
  status : String
deriving DecidableEq, Repr

/-- Barber (staff) record. -/
structure Barber where
  id : String
  storeId : String
  name : String
  isActive : Bool
deriving DecidableEq, Repr

/-- Service record; `duration` in minutes. -/
structure Service where
  id : String
  storeId : String
  duration : Int
  isActive : Bool
deriving DecidableEq, Repr

/-- Business-hours record, one per (store, weekday). -/
structure BusinessHoursRec where
  storeId : String
  dayOfWeek : Int
  openTime : String
  closeTime : String
  isClosed : Bool
deriving DecidableEq, Repr

/-- The database state visible to the engine. -/
structure DB where
  barbers : List Barber
  services : List Service
  businessHours : List BusinessHoursRec
  bookings : List Booking
deriving Repr

/-- Calendar day index of an absolute minute (floor division). -/
def dayIndex (t : Int) : Int := t / 1440

/-- Minute-of-day of an absolute minute. -/
def minuteOfDay (t : Int) : Int := t % 1440

/-- Weekday of an absolute minute; models `Date.getDay()` up to a fixed
epoch offset (day index mod 7). -/
def dayOfWeekOf (t : Int) : Int := dayIndex t % 7

/-- Character-level model of JS `String.prototype.split` with a one-char
separator (structurally recursive so that concrete inputs evaluate). -/
def splitOnChar (sep : Char) : List Char → List (List Char)
  | [] => [[]]
  | c :: rest =>
    let r := splitOnChar sep rest
    if c = sep then [] :: r
    else
      match r with
      | [] => [[c]]
      | g :: gs => (c :: g) :: gs

/-- Value of a decimal digit character. -/
def digitVal? (c : Char) : Option Nat :=
  if '0' ≤ c ∧ c ≤ '9' then some (c.toNat - 48) else none

/-- Decimal-digit accumulator for `parseNumber?`. -/
def parseDigitsAux : List Char → Nat → Option Nat
  | [], acc => some acc
  | c :: cs, acc =>
    match digitVal? c with
    | some d => parseDigitsAux cs (acc * 10 + d)
    | none => none

/-- Model of JS `Number(...)` on the digit strings the system stores
("HH"/"MM" components).  A non-digit character yields `none` (the JS `NaN`);
the empty string, which JS coerces to `0`, is also modelled as `none` — no
stored time and no claim exercises it. -/
def parseNumber? (l : List Char) : Option Nat :=
  match l with
  | [] => none
  | _ => parseDigitsAux l 0

/-- src/src/types/index.ts `timeToMinutes`: splits on ":" and reads two
numbers (`split(':').map(Number)` then `hours * 60 + minutes`).  The source
returns `NaN` on malformed input; that is modelled as `none` and each
caller reproduces the behaviour the `NaN` would induce there. -/
def timeToMinutes (timeString : String) : Option Int :=
  match splitOnChar ':' timeString.data with
  | [h, m] =>
    match parseNumber? h, parseNumber? m with
    | some hours, some minutes => some ((hours : Int) * 60 + minutes)
    | _, _ => none
  | _ => none

/-- The character of a decimal digit. -/
def digitChar (n : Nat) : Char := Char.ofNat (48 + n)

/-- Fuel-bounded most-significant-first decimal rendering (the fuel is an
evaluation bound only; `natToChars` always supplies enough). -/
def natDigitsAux : Nat → Nat → List Char → List Char
  | 0, _, acc => acc
  | fuel + 1, n, acc =>
    if n < 10 then digitChar n :: acc
    else natDigitsAux fuel (n / 10) (digitChar (n % 10) :: acc)

/-- Decimal rendering of a natural number (JS `Number.prototype.toString`). -/
def natToChars (n : Nat) : List Char := natDigitsAux (n + 1) n []

/-- Decimal rendering of an integer. -/
def intToChars (n : Int) : List Char :=
  if n < 0 then '-' :: natToChars n.natAbs else natToChars n.toNat

/-- Two-digit left zero-padding (JS `padStart(2, '0')`). -/
def pad2 (n : Int) : List Char :=
  let s := intToChars n
  if s.length < 2 then '0' :: s else s

/-- src/src/types/index.ts `minutesToTime`:
`Math.floor(m / 60)` and `m % 60`, both padded to two digits.  All uses are
on non-negative minute-of-day values, where JS `%` agrees with `Int.emod`. -/
def minutesToTime (minutes : Int) : String :=
  let hours := minutes / 60
  let mins := minutes % 60
  String.mk (pad2 hours ++ ':' :: pad2 mins)

/-- src/src/types/index.ts `isTimeRangeOverlap`: strict overlap of two
half-open ranges after parsing; a `NaN` (unparsable) operand makes every JS
comparison false, hence the result false. -/
def isTimeRangeOverlap (start1 end1 start2 end2 : String) : Bool :=
  match timeToMinutes start1, timeToMinutes end1,
        timeToMinutes start2, timeToMinutes end2 with
  | some s1, some e1, some s2, some e2 => s1 < e2 && s2 < e1
  | _, _, _, _ => false

/-- The strict half-open overlap test on minute values — the comparison
performed by `isTimeRangeOverlap` after parsing, and verbatim the test in
`CalendarService.generateBarberTimeSlots`
(`currentTime < booking.endTime && slotEnd > booking.startTime`). -/
def strictOverlap (aStart aEnd bStart bEnd : Int) : Bool :=
  aStart < bEnd && bStart < aEnd

namespace TimeUtils

/-- Loop body of src/src/types/index.ts `getAvailableTimeSlots`:
`for (let minutes = open; minutes + duration <= close; minutes += step)`.
The source loop does not terminate when `step <= 0` (the claimed property
quantifies over `step > 0` only); the embedding adds the `0 < step` guard to
totalise. -/
def slotsLoop (closeM d s : Int) (m : Int) : List String :=
  if _h : m + d ≤ closeM ∧ 0 < s then
    minutesToTime m :: slotsLoop closeM d s (m + s)
  else []
termination_by (closeM - d - m + 1).toNat
decreasing_by
  simp_wf
  omega

/-- src/src/types/index.ts `getAvailableTimeSlots` (string-level slot
enumerator).  Unparsable open/close times make the JS loop guard a `NaN`
comparison, i.e. false, so the result is `[]`. -/
def getAvailableTimeSlots (businessHours : BusinessHoursRec)
    (serviceDuration : Int) (slotInterval : Int := 30) : List String :=
  if businessHours.isClosed then []
  else
    match timeToMinutes businessHours.openTime,
          timeToMinutes businessHours.closeTime with
    | some openMinutes, some closeMinutes =>
      slotsLoop closeMinutes serviceDuration slotInterval openMinutes
    | _, _ => []

end TimeUtils

namespace ConflictDetectionService

/-- Result of one of the private availability probes
(`{ isAvailable, reason? }`). -/
structure AvailabilityCheck where
  isAvailable : Bool
  reason : Option String
deriving DecidableEq, Repr

/-- Result of `checkBusinessHours` (`{ isWithinHours, reason? }`). -/
structure HoursCheck where
  isWithinHours : Bool
  reason : Option String
deriving DecidableEq, Repr

/-- `ConflictDetectionService.checkServiceAvailability`. -/
def checkServiceAvailability (db : DB) (storeId serviceId : String) :
    AvailabilityCheck :=
  match db.services.find? (fun s => s.id == serviceId && s.storeId == storeId) with
  | none => ⟨false, some "找不到指定的服務項目"⟩
  | some service =>
    if !service.isActive then ⟨false, some "該服務項目目前暫停提供"⟩
    else ⟨true, none⟩

/-- `ConflictDetectionService.checkBusinessHours`.  `isWithinInterval` of
date-fns is inclusive containment; `parseISO(dateStr + T + open)` is the
start of `startTime`'s calendar day plus the parsed open time.  A stored
time that does not parse would make the source throw inside
`isWithinInterval`; modelled as not-within (no claim exercises it). -/
def checkBusinessHours (db : DB) (storeId : String) (startTime endTime : Int) :
    HoursCheck :=
  let dow := dayOfWeekOf startTime
  match db.businessHours.find?
      (fun bh => bh.storeId == storeId && bh.dayOfWeek == dow) with
  | none => ⟨false, some "該日期沒有設定營業時間"⟩
  | some bh =>
    if bh.isClosed then ⟨false, some "該日期為休息日"⟩
    else
      match timeToMinutes bh.openTime, timeToMinutes bh.closeTime with
      | some o, some c =>
        let businessStart := dayIndex startTime * 1440 + o
        let businessEnd := dayIndex startTime * 1440 + c
        if businessStart ≤ startTime && startTime ≤ businessEnd &&
            businessStart ≤ endTime && endTime ≤ businessEnd then
          ⟨true, none⟩
        else
          ⟨false, some ("營業時間為 " ++ bh.openTime ++ " - " ++ bh.closeTime)⟩
      | _, _ => ⟨false, some "invalid stored business hours"⟩

/-- The three-clause `OR` of the Prisma `where` used by
`checkBarberAvailability` (and `CalendarService.isTimeSlotAvailable`):
`(startTime <= aStart && endTime > aStart) || (startTime < aEnd &&
endTime >= aEnd) || (startTime >= aStart && endTime <= aEnd)` where
`(startTime, endTime)` is the stored booking and `(aStart, aEnd)` the
candidate interval. -/
def bookingOverlapsQuery (bkStart bkEnd aStart aEnd : Int) : Bool :=
  (bkStart ≤ aStart && bkEnd > aStart) ||
  (bkStart < aEnd && bkEnd ≥ aEnd) ||
  (bkStart ≥ aStart && bkEnd ≤ aEnd)

/-- The conflicting-bookings query of `checkBarberAvailability`: same
store and barber, `status: { not: 'cancelled' }`, the three-clause overlap,
and `id: { not: excludeBookingId }` when an exclusion is given. -/
def conflictingBookings (db : DB) (storeId barberId : String)
    (startTime endTime : Int) (excludeBookingId : Option String) :
    List Booking :=
  db.bookings.filter (fun bk =>
    bk.storeId == storeId && bk.barberId == barberId &&
    bk.status != "cancelled" &&
    bookingOverlapsQuery bk.startTime bk.endTime startTime endTime &&
    (match excludeBookingId with
     | some e => bk.id != e
     | none => true))

/-- `ConflictDetectionService.checkBarberAvailability`.  Note: it checks
barber existence, `isActive`, and booking overlaps — it performs no
business-hours check of its own. -/
def checkBarberAvailability (db : DB) (storeId barberId : String)
    (startTime endTime : Int) (excludeBookingId : Option String) :
    AvailabilityCheck :=
  match db.barbers.find? (fun b => b.id == barberId && b.storeId == storeId) with
  | none => ⟨false, some "找不到指定的理髮師"⟩
  | some barber =>
    if !barber.isActive then ⟨false, some "該理髮師目前暫停服務"⟩
    else
      match conflictingBookings db storeId barberId startTime endTime
          excludeBookingId with
      | [] => ⟨true, none⟩
      | bk :: _ =>
        ⟨false, some ("該理髮師在 " ++ minutesToTime (minuteOfDay bk.startTime)
          ++ " 已有其他預約")⟩

/-- One suggested alternative `{ barberId, barberName, startTime, endTime }`. -/
structure AlternativeSlot where
  barberId : String
  barberName : String
  startTime : Int
  endTime : Int
deriving DecidableEq, Repr

/-- `ConflictDetectionService.findAvailableBarbers`: scan the store's
active barbers in roster order and keep those whose
`checkBarberAvailability` reports available at the interval. -/
def findAvailableBarbers (db : DB) (storeId : String)
    (startTime endTime : Int) (excludeBookingId : Option String) :
    List AlternativeSlot :=
  (db.barbers.filter (fun b => b.storeId == storeId && b.isActive)).filterMap
    (fun b =>
      if (checkBarberAvailability db storeId b.id startTime endTime
            excludeBookingId).isAvailable then
        some ⟨b.id, b.name, startTime, endTime⟩
      else none)

/-- The `for (const slot of timeSlots)` loop of `findAlternativeBarbers`:
append each shifted-interval scan, and `break` once at least 5 alternatives
have accumulated (the length check runs after each scan). -/
def tryOffsetSlots (db : DB) (storeId : String)
    (excludeBookingId : Option String) (acc : List AlternativeSlot) :
    List (Int × Int) → List AlternativeSlot
  | [] => acc
  | (s, e) :: rest =>
    let acc' := acc ++ findAvailableBarbers db storeId s e excludeBookingId
    if acc'.length ≥ 5 then acc'
    else tryOffsetSlots db storeId excludeBookingId acc' rest

/-- `ConflictDetectionService.findAlternativeBarbers`: same-time scan
first; only when it produced zero entries, try the −30/+30/−60/+60 minute
shifts; finally `slice(0, 5)`. -/
def findAlternativeBarbers (db : DB) (storeId : String)
    (preferredStartTime preferredEndTime : Int)
    (excludeBookingId : Option String) : List AlternativeSlot :=
  let alternatives :=
    findAvailableBarbers db storeId preferredStartTime preferredEndTime
      excludeBookingId
  let alternatives :=
    if alternatives.length = 0 then
      tryOffsetSlots db storeId excludeBookingId alternatives
        [(preferredStartTime - 30, preferredEndTime - 30),
         (preferredStartTime + 30, preferredEndTime + 30),
         (preferredStartTime - 60, preferredEndTime - 60),
         (preferredStartTime + 60, preferredEndTime + 60)]
    else alternatives
  alternatives.take 5

/-- `BookingConflictCheck` input record. -/
structure BookingConflictCheck where
  storeId : String
  barberId : Option String
  serviceId : String
  startTime : Int
  endTime : Int
  excludeBookingId : Option String
deriving DecidableEq, Repr

/-- `ConflictCheckResult`; fields the source leaves out of the returned
object literal are `none`. -/
structure ConflictCheckResult where
  hasConflict : Bool
  conflictType : Option String
  conflictDetails : Option String
  suggestedAlternatives : Option (List AlternativeSlot)
deriving DecidableEq, Repr

/-- `ConflictDetectionService.checkBookingConflicts` (the sequential gate:
service, business hours, then the barber branch).  The `catch` wrapper is
unreachable in the pure embedding. -/
def checkBookingConflicts (db : DB) (check : BookingConflictCheck) :
    ConflictCheckResult :=
  let serviceCheck := checkServiceAvailability db check.storeId check.serviceId
  if !serviceCheck.isAvailable then
    ⟨true, some "service_unavailable", serviceCheck.reason, none⟩
  else
    let businessHoursCheck :=
      checkBusinessHours db check.storeId check.startTime check.endTime
    if !businessHoursCheck.isWithinHours then
      ⟨true, some "outside_business_hours", businessHoursCheck.reason, none⟩
    else
      match check.barberId with
      | some barberId =>
        let barberCheck :=
          checkBarberAvailability db check.storeId barberId check.startTime
            check.endTime check.excludeBookingId
        if !barberCheck.isAvailable then
          let alternatives :=
            findAlternativeBarbers db check.storeId check.startTime
              check.endTime check.excludeBookingId
          ⟨true, some "barber_unavailable", barberCheck.reason,
            some alternatives⟩
        else ⟨false, none, none, none⟩
      | none =>
        let availableBarbers :=
          findAvailableBarbers db check.storeId check.startTime check.endTime
            check.excludeBookingId
        if availableBarbers.length = 0 then
          ⟨true, some "time_overlap", some "該時段所有理髮師都已被預約", none⟩
        else ⟨false, none, none, none⟩

/-- `{ isValid, error? }` result of the two validators. -/
structure ValidationResult where
  isValid : Bool
  error : Option String
deriving DecidableEq, Repr

/-- `ConflictDetectionService.validateServiceTime`.  The JS duration is a
`number`, so a non-integer input is representable: modelled as `ℚ`
(`Number.isInteger duration` becomes `duration.den = 1`).  For an integer
value the JS `%` agrees with `Int.emod` on the numerator. -/
def validateServiceTime (duration : ℚ) : ValidationResult :=
  if duration.den ≠ 1 then ⟨false, some "服務時間必須是整數分鐘"⟩
  else if duration ≤ 0 then ⟨false, some "服務時間必須大於0分鐘"⟩
  else if duration > 480 then ⟨false, some "服務時間不能超過8小時"⟩
  else if duration.num % 15 ≠ 0 then ⟨false, some "服務時間必須是15分鐘的倍數"⟩
  else ⟨true, none⟩

/-- `ConflictDetectionService.validateBookingTime`; `now` is the current
time (`new Date()`), in absolute minutes like every other time. -/
def validateBookingTime (now startTime : Int) : ValidationResult :=
  let minBookingTime := now + 30
  if startTime < minBookingTime then
    ⟨false, some "預約時間必須至少提前30分鐘"⟩
  else
    let maxBookingTime := now + 90 * 24 * 60
    if startTime > maxBookingTime then
      ⟨false, some "預約時間不能超過3個月"⟩
    else ⟨true, none⟩

end ConflictDetectionService

namespace CalendarService

open ConflictDetectionService

/-- `TimeSlot` of src/unnamed/part_014. -/
structure TimeSlot where
  startTime : Int
  endTime : Int
  barberId : String
  barberName : String
  isAvailable : Bool
deriving DecidableEq, Repr

/-- `AvailabilityQuery`; the `date` string "YYYY-MM-DD" is modelled as its
calendar day index. -/
structure AvailabilityQuery where
  storeId : String
  date : Int
  serviceId : String
  barberId : Option String
  duration : Option Int
deriving DecidableEq, Repr

/-- `CalendarService.getBusinessHours`: weekday of the date, find the
record for (store, weekday) with `isClosed: false`. -/
def getBusinessHours (db : DB) (storeId : String) (date : Int) :
    Option (String × String) :=
  let dayOfWeek := date % 7
  match db.businessHours.find? (fun bh =>
      bh.storeId == storeId && bh.dayOfWeek == dayOfWeek &&
      bh.isClosed == false) with
  | none => none
  | some bh => some (bh.openTime, bh.closeTime)

/-- `CalendarService.getAvailableBarbers`: active barbers of the store,
narrowed to one id when given. -/
def getAvailableBarbers (db : DB) (storeId : String)
    (barberId : Option String) : List Barber :=
  db.barbers.filter (fun b =>
    b.storeId == storeId && b.isActive &&
    (match barberId with
     | some i => b.id == i
     | none => true))

/-- `CalendarService.getExistingBookings`: non-cancelled bookings of the
given barbers whose `startTime` lies within the calendar day
(`startOfDay..endOfDay`, i.e. minute-of-day 0..1439). -/
def getExistingBookings (db : DB) (storeId : String) (date : Int)
    (barberIds : List String) : List Booking :=
  db.bookings.filter (fun bk =>
    bk.storeId == storeId && barberIds.contains bk.barberId &&
    bk.status != "cancelled" &&
    date * 1440 ≤ bk.startTime && bk.startTime ≤ date * 1440 + 1439)

/-- The `while (currentTime < businessEnd)` loop of
`generateBarberTimeSlots`: step 30 minutes; push a slot (with its
availability flag) only when `slotEnd <= businessEnd`. -/
def generateSlotsLoop (barber : Barber) (businessEnd serviceDuration : Int)
    (existing : List Booking) (currentTime : Int) : List TimeSlot :=
  if _h : currentTime < businessEnd then
    let slotEnd := currentTime + serviceDuration
    let rest :=
      generateSlotsLoop barber businessEnd serviceDuration existing
        (currentTime + 30)
    if slotEnd ≤ businessEnd then
      let hasConflict := existing.any (fun booking =>
        currentTime < booking.endTime && slotEnd > booking.startTime)
      ⟨currentTime, slotEnd, barber.id, barber.name, !hasConflict⟩ :: rest
    else rest
  else []
termination_by (businessEnd - currentTime).toNat
decreasing_by
  simp_wf
  omega

/-- `CalendarService.generateBarberTimeSlots`.  Unparsable stored times
would make the source's `parseISO` produce an invalid date (no claim
exercises this); modelled as `[]`. -/
def generateBarberTimeSlots (barber : Barber) (date : Int)
    (openTime closeTime : String) (serviceDuration : Int)
    (existing : List Booking) : List TimeSlot :=
  match timeToMinutes openTime, timeToMinutes closeTime with
  | some o, some c =>
    generateSlotsLoop barber (date * 1440 + c) serviceDuration existing
      (date * 1440 + o)
  | _, _ => []

/-- `CalendarService.getAvailableTimeSlots`.  A missing/inactive service
makes the source `throw`, modelled as `none`.  Note the JS
`duration || service.duration`: a provided duration of `0` is falsy and
falls back to the service duration.  The final sort is by `startTime`
(JS `Array.sort` is stable; so is `List.mergeSort`). -/
def getAvailableTimeSlots (db : DB) (query : AvailabilityQuery) :
    Option (List TimeSlot) :=
  match db.services.find? (fun s =>
      s.id == query.serviceId && s.storeId == query.storeId && s.isActive) with
  | none => none
  | some service =>
    let serviceDuration :=
      match query.duration with
      | some d => if d = 0 then service.duration else d
      | none => service.duration
    match getBusinessHours db query.storeId query.date with
    | none => some []
    | some (openTime, closeTime) =>
      let barbers := getAvailableBarbers db query.storeId query.barberId
      if barbers.length = 0 then some []
      else
        let existingBookings :=
          getExistingBookings db query.storeId query.date
            (barbers.map (fun b => b.id))
        let availableSlots := barbers.flatMap (fun barber =>
          generateBarberTimeSlots barber query.date openTime closeTime
            serviceDuration
            (existingBookings.filter (fun bk => bk.barberId == barber.id)))
        some (availableSlots.mergeSort (fun a b => a.startTime ≤ b.startTime))

/-- `CalendarService.isTimeSlotAvailable`: business-hours containment of
the candidate interval, then the same three-clause conflicting-bookings
query (without exclusion); available iff no conflicting booking. -/
def isTimeSlotAvailable (db : DB) (storeId barberId : String)
    (startTime endTime : Int) : Bool :=
  match getBusinessHours db storeId (dayIndex startTime) with
  | none => false
  | some (openTime, closeTime) =>
    match timeToMinutes openTime, timeToMinutes closeTime with
    | some o, some c =>
      let businessStart := dayIndex startTime * 1440 + o
      let businessEnd := dayIndex startTime * 1440 + c
      if !(businessStart ≤ startTime && startTime ≤ businessEnd &&
           businessStart ≤ endTime && endTime ≤ businessEnd) then false
      else
        (db.bookings.filter (fun bk =>
          bk.storeId == storeId && bk.barberId == barberId &&
          bk.status != "cancelled" &&
          bookingOverlapsQuery bk.startTime bk.endTime startTime endTime)).length
          = 0
    | _, _ => false

end CalendarService

namespace BookingService

open ConflictDetectionService

/-- `CreateBookingRequest` (fields that influence the engine). -/
structure CreateBookingRequest where
  storeId : String
  barberId : Option String
  serviceId : String
  startTime : Int
  customerName : String
deriving DecidableEq, Repr

/-- `UpdateBookingRequest` (fields that influence the engine). -/
structure UpdateBookingRequest where
  bookingId : String
  barberId : Option String
  serviceId : Option String
  startTime : Option Int
  status : Option String
deriving DecidableEq, Repr

/-- `BookingResult` (the persisted booking payload is storage-collaborator
output and is not inspected by any claim). -/
structure BookingResult where
  success : Bool
  error : Option String
  alternatives : Option (List AlternativeSlot)
deriving DecidableEq, Repr

/-- `BookingService.findAvailableBarber`: active barbers filtered by
`CalendarService.isTimeSlotAvailable`. -/
def findAvailableBarber (db : DB) (storeId : String)
    (startTime endTime : Int) : List (String × String) :=
  (db.barbers.filter (fun b => b.storeId == storeId && b.isActive)).filterMap
    (fun b =>
      if CalendarService.isTimeSlotAvailable db storeId b.id startTime endTime
      then some (b.id, b.name)
      else none)

/-- `BookingService.createBooking` up to the conflict gate; the second
component records whether `checkBookingConflicts` was invoked (the
persisting write that follows a clean check belongs to the storage
collaborator). -/
def createBooking (db : DB) (now : Int) (request : CreateBookingRequest) :
    BookingResult × Bool :=
  match db.services.find? (fun s =>
      s.id == request.serviceId && s.storeId == request.storeId &&
      s.isActive) with
  | none => (⟨false, some "找不到指定的服務項目", none⟩, false)
  | some service =>
    let endTime := request.startTime + service.duration
    let timeValidation := validateBookingTime now request.startTime
    if !timeValidation.isValid then
      (⟨false, timeValidation.error, none⟩, false)
    else
      let assignedBarberId : Option String :=
        match request.barberId with
        | some b => some b
        | none =>
          match findAvailableBarber db request.storeId request.startTime
              endTime with
          | [] => none
          | b :: _ => some b.1
      match assignedBarberId with
      | none => (⟨false, some "該時段沒有可用的理髮師", none⟩, false)
      | some barberId =>
        let conflictCheck := checkBookingConflicts db
          ⟨request.storeId, some barberId, request.serviceId,
            request.startTime, endTime, none⟩
        if conflictCheck.hasConflict then
          (⟨false, conflictCheck.conflictDetails,
             conflictCheck.suggestedAlternatives⟩, true)
        else (⟨true, none, none⟩, true)

/-- `BookingService.updateBooking` up to the conflict gate; the second
component records whether `checkBookingConflicts` was invoked.  The
`include: { service: true }` join of the source is modelled by looking the
existing booking's service up in `db.services` (a dangling foreign key
would already have failed the source's join; modelled as an error). -/
def updateBooking (db : DB) (now : Int) (request : UpdateBookingRequest) :
    BookingResult × Bool :=
  match db.bookings.find? (fun bk => bk.id == request.bookingId) with
  | none => (⟨false, some "找不到指定的預約", none⟩, false)
  | some existingBooking =>
    if request.serviceId.isSome || request.startTime.isSome ||
        request.barberId.isSome then
      let newService? : Option Service :=
        match request.serviceId with
        | some sid =>
          db.services.find? (fun s =>
            s.id == sid && s.storeId == existingBooking.storeId && s.isActive)
        | none =>
          db.services.find? (fun s => s.id == existingBooking.serviceId)
      match newService? with
      | none => (⟨false, some "找不到指定的服務項目", none⟩, false)
      | some newService =>
        let startTimeValidation :=
          match request.startTime with
          | some t => validateBookingTime now t
          | none => ⟨true, none⟩
        if !startTimeValidation.isValid then
          (⟨false, startTimeValidation.error, none⟩, false)
        else
          let newStartTime :=
            match request.startTime with
            | some t => t
            | none => existingBooking.startTime
          let newBarberId :=
            match request.barberId with
            | some b => b
            | none => existingBooking.barberId
          let newEndTime := newStartTime + newService.duration
          let conflictCheck := checkBookingConflicts db
            ⟨existingBooking.storeId, some newBarberId, newService.id,
              newStartTime, newEndTime, some request.bookingId⟩
          if conflictCheck.hasConflict then
            (⟨false, conflictCheck.conflictDetails,
               conflictCheck.suggestedAlternatives⟩, true)
          else (⟨true, none, none⟩, true)
    else (⟨true, none, none⟩, false)

end BookingService

/-! Concrete database states used to evaluate the engine on explicit
inputs.  All use one store "s" with business hours 09:00–17:00 on the
weekday of day 0, and a 30-minute service "svc". -/

/-- Barber A with back-to-back bookings 16:00–16:30 and 16:30–17:00. -/
def dbC1 : DB :=
  { barbers := [⟨"A", "s", "Alice", true⟩]
    services := [⟨"svc", "s", 30, true⟩]
    businessHours := [⟨"s", 0, "09:00", "17:00", false⟩]
    bookings := [⟨"b1", "s", "A", "svc", 960, 990, "confirmed"⟩,
                 ⟨"b2", "s", "A", "svc", 990, 1020, "confirmed"⟩] }

/-- Barbers A and B; A booked 10:00–10:30, B free. -/
def dbC2 : DB :=
  { barbers := [⟨"A", "s", "Alice", true⟩, ⟨"B", "s", "Bob", true⟩]
    services := [⟨"svc", "s", 30, true⟩]
    businessHours := [⟨"s", 0, "09:00", "17:00", false⟩]
    bookings := [⟨"b1", "s", "A", "svc", 600, 630, "confirmed"⟩] }

/-- Single barber A, booked 10:00–10:30. -/
def dbC3 : DB :=
  { barbers := [⟨"A", "s", "Alice", true⟩]
    services := [⟨"svc", "s", 30, true⟩]
    businessHours := [⟨"s", 0, "09:00", "17:00", false⟩]
    bookings := [⟨"b1", "s", "A", "svc", 600, 630, "confirmed"⟩] }

/-- Single barber A with one completed booking 10:00–10:30. -/
def dbC5 : DB :=
  { barbers := [⟨"A", "s", "Alice", true⟩]
    services := [⟨"svc", "s", 30, true⟩]
    businessHours := [⟨"s", 0, "09:00", "17:00", false⟩]
    bookings := [⟨"b1", "s", "A", "svc", 600, 630, "completed"⟩] }

/-- Single barber A with an empty calendar. -/
def dbC6 : DB :=
  { barbers := [⟨"A", "s", "Alice", true⟩]
    services := [⟨"svc", "s", 30, true⟩]
    businessHours := [⟨"s", 0, "09:00", "17:00", false⟩]
    bookings := [] }

/-- Single barber A whose only booking is "b1" at 10:00–10:30. -/
def dbC8 : DB :=
  { barbers := [⟨"A", "s", "Alice", true⟩]
    services := [⟨"svc", "s", 30, true⟩]
    businessHours := [⟨"s", 0, "09:00", "17:00", false⟩]
    bookings := [⟨"b1", "s", "A", "svc", 600, 630, "confirmed"⟩] }

/-- Barber A free all day. -/
def dbC10 : DB :=
  { barbers := [⟨"A", "s", "Alice", true⟩]
    services := [⟨"svc", "s", 30, true⟩]
    businessHours := [⟨"s", 0, "09:00", "17:00", false⟩]
    bookings := [] }

/-! ### Shared lemmas about the engine -/

namespace ConflictDetectionService

/-- Membership in a `findAvailableBarbers` scan pins the slot's interval to
the scanned interval, identifies an active roster barber behind the entry,
and certifies the availability probe. -/
theorem findAvailableBarbers_sound {db : DB} {sid : String} {s e : Int}
    {ex : Option String} {alt : AlternativeSlot}
    (h : alt ∈ findAvailableBarbers db sid s e ex) :
    alt.startTime = s ∧ alt.endTime = e ∧
    (∃ b ∈ db.barbers, b.id = alt.barberId ∧ b.storeId = sid ∧
      b.isActive = true) ∧
    (checkBarberAvailability db sid alt.barberId s e ex).isAvailable = true := by
  unfold findAvailableBarbers at h
  rw [List.mem_filterMap] at h
  obtain ⟨b, hb, hf⟩ := h
  rw [List.mem_filter, Bool.and_eq_true, beq_iff_eq] at hb
  obtain ⟨hbmem, hbsid, hbact⟩ := hb
  by_cases hav : (checkBarberAvailability db sid b.id s e ex).isAvailable = true
  · rw [if_pos hav] at hf
    cases hf
    exact ⟨rfl, rfl, ⟨b, hbmem, rfl, hbsid, hbact⟩, hav⟩
  · rw [if_neg hav] at hf
    cases hf

/-- An available probe means the conflicting-bookings query came back
empty (and the barber resolved and is active). -/
theorem checkBarberAvailability_conflicts_nil {db : DB} {sid bid : String}
    {s e : Int} {ex : Option String}
    (h : (checkBarberAvailability db sid bid s e ex).isAvailable = true) :
    conflictingBookings db sid bid s e ex = [] := by
  unfold checkBarberAvailability at h
  cases hf : db.barbers.find? (fun b => b.id == bid && b.storeId == sid) with
  | none => rw [hf] at h; cases h
  | some b =>
    rw [hf] at h
    by_cases hact : b.isActive = true
    · cases hc : conflictingBookings db sid bid s e ex with
      | nil => rfl
      | cons bk tl => rw [hc] at h; simp [hact] at h
    · rw [Bool.not_eq_true] at hact
      simp [hact] at h

/-- What membership in the conflicting-bookings query means. -/
theorem mem_conflictingBookings {db : DB} {sid bid : String} {s e : Int}
    {ex : Option String} {bk : Booking}
    (h : bk ∈ conflictingBookings db sid bid s e ex) :
    bk ∈ db.bookings ∧ bk.storeId = sid ∧ bk.barberId = bid ∧
    bk.status ≠ "cancelled" ∧
    bookingOverlapsQuery bk.startTime bk.endTime s e = true ∧
    (∀ x, ex = some x → bk.id ≠ x) := by
  unfold conflictingBookings at h
  rw [List.mem_filter] at h
  obtain ⟨hmem, hp⟩ := h
  simp only [Bool.and_eq_true, beq_iff_eq, bne_iff_ne, ne_eq] at hp
  obtain ⟨⟨⟨⟨h1, h2⟩, h3⟩, h4⟩, h5⟩ := hp
  refine ⟨hmem, h1, h2, h3, h4, ?_⟩
  intro x hx
  rw [hx] at h5
  simpa using h5

/-- An empty conflicting-bookings query means no stored booking of the
(store, barber) pair that is non-cancelled and non-excluded overlaps the
candidate interval. -/
theorem conflictingBookings_nil_sound {db : DB} {sid bid : String}
    {s e : Int} {ex : Option String}
    (h : conflictingBookings db sid bid s e ex = []) :
    ∀ bk ∈ db.bookings, bk.storeId = sid → bk.barberId = bid →
      bk.status ≠ "cancelled" → (∀ x, ex = some x → bk.id ≠ x) →
      bookingOverlapsQuery bk.startTime bk.endTime s e = false := by
  intro bk hmem h1 h2 h3 h4
  by_contra hov
  rw [Bool.not_eq_false] at hov
  have : bk ∈ conflictingBookings db sid bid s e ex := by
    unfold conflictingBookings
    rw [List.mem_filter]
    refine ⟨hmem, ?_⟩
    simp only [Bool.and_eq_true, beq_iff_eq, bne_iff_ne, ne_eq]
    refine ⟨⟨⟨⟨h1, h2⟩, h3⟩, hov⟩, ?_⟩
    cases ex with
    | none => simp
    | some x => simpa using h4 x rfl
  rw [h] at this
  cases this

/-- Tracing membership through the offset ladder. -/
theorem mem_tryOffsetSlots {db : DB} {sid : String} {ex : Option String} :
    ∀ {offs : List (Int × Int)} {acc : List AlternativeSlot}
      {alt : AlternativeSlot}, alt ∈ tryOffsetSlots db sid ex acc offs →
      alt ∈ acc ∨ ∃ p ∈ offs, alt ∈ findAvailableBarbers db sid p.1 p.2 ex := by
  intro offs
  induction offs with
  | nil => intro acc alt h; exact Or.inl h
  | cons hd tl ih =>
    intro acc alt h
    unfold tryOffsetSlots at h
    by_cases hlen :
        (acc ++ findAvailableBarbers db sid hd.1 hd.2 ex).length ≥ 5
    · rw [if_pos hlen] at h
      rcases List.mem_append.mp h with hacc | hscan
      · exact Or.inl hacc
      · exact Or.inr ⟨hd, List.mem_cons_self hd tl, hscan⟩
    · rw [if_neg hlen] at h
      rcases ih h with hacc | ⟨p, hp, hscan⟩
      · rcases List.mem_append.mp hacc with hacc' | hscan'
        · exact Or.inl hacc'
        · exact Or.inr ⟨hd, List.mem_cons_self hd tl, hscan'⟩
      · exact Or.inr ⟨p, List.mem_cons_of_mem hd hp, hscan⟩

/-- Every entry of `findAlternativeBarbers` carries the interval it was
scanned at, so its availability probe at its own interval succeeded, and
it names an active roster barber. -/
theorem mem_findAlternativeBarbers {db : DB} {sid : String} {ps pe : Int}
    {ex : Option String} {alt : AlternativeSlot}
    (h : alt ∈ findAlternativeBarbers db sid ps pe ex) :
    (checkBarberAvailability db sid alt.barberId alt.startTime alt.endTime
      ex).isAvailable = true ∧
    (∃ b ∈ db.barbers, b.id = alt.barberId ∧ b.storeId = sid ∧
      b.isActive = true) := by
  unfold findAlternativeBarbers at h
  have h' := List.mem_of_mem_take h
  have resolve :
      ∀ {s e : Int}, alt ∈ findAvailableBarbers db sid s e ex →
        (checkBarberAvailability db sid alt.barberId alt.startTime
          alt.endTime ex).isAvailable = true ∧
        (∃ b ∈ db.barbers, b.id = alt.barberId ∧ b.storeId = sid ∧
          b.isActive = true) := by
    intro s e hmem
    obtain ⟨hst, hen, hbar, hav⟩ := findAvailableBarbers_sound hmem
    rw [hst, hen]
    exact ⟨hav, hbar⟩
  by_cases h0 :
      (findAvailableBarbers db sid ps pe ex).length = 0
  · rw [if_pos h0] at h'
    rcases mem_tryOffsetSlots h' with hacc | ⟨p, _, hscan⟩
    · exact resolve hacc
    · exact resolve hscan
  · rw [if_neg h0] at h'
    exact resolve h'

end ConflictDetectionService

open ConflictDetectionService

/-! ### Claim C1 -/

/-- C1 counterexample: in `dbC1` (hours 09:00–17:00, barber A booked
16:00–16:30 and 16:30–17:00), the conflict check for A at 16:30–17:00
surfaces the alternative A at 17:00–17:30 (absolute minutes 1020–1050),
whose interval the business-hours check rejects — refuting the claim that
every surfaced alternative lies within business hours. -/
theorem C1_counterexample :
    (checkBookingConflicts dbC1 ⟨"s", some "A", "svc", 990, 1020, none⟩).suggestedAlternatives =
      some [⟨"A", "Alice", 1020, 1050⟩, ⟨"A", "Alice", 930, 960⟩,
        ⟨"A", "Alice", 1050, 1080⟩] ∧
    (checkBusinessHours dbC1 "s" 1020 1050).isWithinHours = false := by
  decide

/-- C1 (amended): every alternative produced by `findAlternativeBarbers`
passes `checkBarberAvailability` at its own interval — it names an active
roster barber of the store and overlaps no existing non-excluded,
non-cancelled booking of that barber; containment in business hours,
however, is not guaranteed (it is checked only for the originally
requested interval). -/
theorem C1_amended (db : DB) (storeId : String) (ps pe : Int)
    (ex : Option String) :
    ∀ alt ∈ findAlternativeBarbers db storeId ps pe ex,
      (checkBarberAvailability db storeId alt.barberId alt.startTime
        alt.endTime ex).isAvailable = true ∧
      (∃ b ∈ db.barbers, b.id = alt.barberId ∧ b.storeId = storeId ∧
        b.isActive = true) ∧
      (∀ bk ∈ db.bookings, bk.storeId = storeId →
        bk.barberId = alt.barberId → bk.status ≠ "cancelled" →
        (∀ x, ex = some x → bk.id ≠ x) →
        bookingOverlapsQuery bk.startTime bk.endTime alt.startTime
          alt.endTime = false) := by
  intro alt h
  obtain ⟨hav, hbar⟩ := mem_findAlternativeBarbers h
  exact ⟨hav, hbar,
    conflictingBookings_nil_sound (checkBarberAvailability_conflicts_nil hav)⟩

/-- C1 witness: the amended theorem applied to the concrete alternative
A at 17:00–17:30 of `dbC1`. -/
theorem C1_witness :
    (checkBarberAvailability dbC1 "s" "A" 1020 1050 none).isAvailable = true :=
  (C1_amended dbC1 "s" 990 1020 none ⟨"A", "Alice", 1020, 1050⟩ (by decide)).1

/-! ### Claim C2 -/

/-- C2 counterexample: in `dbC2` (A booked 10:00–10:30, B free), the
request for A at 10:00–10:30 finds the single same-time alternative B —
fewer than 5 collected — yet the −30-minute scan, which would find A at
09:30–10:00, is never consulted: its entry is absent from the result.
This refutes "whenever fewer than 5 alternatives have been collected so
far, additionally tries the shifted intervals". -/
theorem C2_counterexample :
    findAlternativeBarbers dbC2 "s" 600 630 none = [⟨"B", "Bob", 600, 630⟩] ∧
    (findAlternativeBarbers dbC2 "s" 600 630 none).length < 5 ∧
    (⟨"A", "Alice", 570, 600⟩ : AlternativeSlot) ∈
      findAvailableBarbers dbC2 "s" 570 600 none ∧
    (⟨"A", "Alice", 570, 600⟩ : AlternativeSlot) ∉
      findAlternativeBarbers dbC2 "s" 600 630 none := by
  decide

/-- C2 (amended): the offset ladder −30/+30/−60/+60 is consulted if and
only if the same-time scan produced zero alternatives; in that case scans
are appended in the fixed order, stopping after the first offset at which
at least 5 entries have accumulated; the final list is truncated to 5. -/
theorem C2_amended (db : DB) (storeId : String) (ps pe : Int)
    (ex : Option String) :
    findAlternativeBarbers db storeId ps pe ex =
      (let s0 := findAvailableBarbers db storeId ps pe ex
       let s1 := findAvailableBarbers db storeId (ps - 30) (pe - 30) ex
       let s2 := findAvailableBarbers db storeId (ps + 30) (pe + 30) ex
       let s3 := findAvailableBarbers db storeId (ps - 60) (pe - 60) ex
       let s4 := findAvailableBarbers db storeId (ps + 60) (pe + 60) ex
       if s0.length = 0 then
         (if 5 ≤ s1.length then s1
          else if 5 ≤ (s1 ++ s2).length then s1 ++ s2
          else if 5 ≤ (s1 ++ s2 ++ s3).length then s1 ++ s2 ++ s3
          else s1 ++ s2 ++ s3 ++ s4).take 5
       else s0.take 5) := by
  unfold findAlternativeBarbers
  by_cases h0 : (findAvailableBarbers db storeId ps pe ex).length = 0
  · have hnil : findAvailableBarbers db storeId ps pe ex = [] :=
      List.length_eq_zero.mp h0
    simp only [h0, if_true, hnil, tryOffsetSlots, List.nil_append,
      List.append_assoc, ge_iff_le]
    norm_num
  · simp only [h0, if_false]

/-! ### Claim C3 -/

/-- C3 counterexample: in `dbC3` (single barber A booked 10:00–10:30), the
staff-omitted request at 10:00–10:30 returns `time_overlap` with NO
`suggestedAlternatives`, although the alternative search would have found
shifted slots — refuting "alternatives populated by invoking the
Alternative Slot Search". -/
theorem C3_counterexample :
    checkBookingConflicts dbC3 ⟨"s", none, "svc", 600, 630, none⟩ =
      ⟨true, some "time_overlap", some "該時段所有理髮師都已被預約", none⟩ ∧
    findAlternativeBarbers dbC3 "s" 600 630 none ≠ [] := by
  decide

/-- C3 (amended): when `barberId` is omitted, the service and
business-hours gates pass, and no active barber is available at the
requested interval, `checkBookingConflicts` returns `hasConflict = true`
with `conflictType = time_overlap` and the "all barbers booked" detail —
and leaves `suggestedAlternatives` unpopulated (the alternative search is
not invoked on this path). -/
theorem C3_amended (db : DB) (check : BookingConflictCheck)
    (hb : check.barberId = none)
    (hs : (checkServiceAvailability db check.storeId
      check.serviceId).isAvailable = true)
    (hh : (checkBusinessHours db check.storeId check.startTime
      check.endTime).isWithinHours = true)
    (ha : findAvailableBarbers db check.storeId check.startTime
      check.endTime check.excludeBookingId = []) :
    checkBookingConflicts db check =
      ⟨true, some "time_overlap", some "該時段所有理髮師都已被預約", none⟩ := by
  unfold checkBookingConflicts
  simp [hs, hh, hb, ha]

/-- C3 witness: the amended theorem at the concrete state `dbC3`. -/
theorem C3_witness :
    checkBookingConflicts dbC3 ⟨"s", none, "svc", 600, 630, none⟩ =
      ⟨true, some "time_overlap", some "該時段所有理髮師都已被預約", none⟩ :=
  C3_amended dbC3 ⟨"s", none, "svc", 600, 630, none⟩ rfl (by decide)
    (by decide) (by decide)

/-! ### Claim C4 -/

/-- C4: for non-degenerate intervals, the three-clause disjunction of the
conflict query (`bookingOverlapsQuery`, booking interval `[bStart, bEnd)`
against candidate `[aStart, aEnd)`) holds exactly when the strict
half-open overlap test of `isTimeRangeOverlap` holds
(`aStart < bEnd && bStart < aEnd`); intervals that merely touch at an
endpoint are conflicting under neither formulation. -/
theorem C4_overlap_equiv (aStart aEnd bStart bEnd : Int)
    (sa ea sb eb : String)
    (ha : aStart < aEnd) (hb : bStart < bEnd)
    (hsa : timeToMinutes sa = some aStart) (hea : timeToMinutes ea = some aEnd)
    (hsb : timeToMinutes sb = some bStart) (heb : timeToMinutes eb = some bEnd) :
    (bookingOverlapsQuery bStart bEnd aStart aEnd = true ↔
      (aStart < bEnd ∧ bStart < aEnd)) ∧
    (isTimeRangeOverlap sa ea sb eb = true ↔
      (aStart < bEnd ∧ bStart < aEnd)) ∧
    ((bEnd = aStart ∨ aEnd = bStart) →
      bookingOverlapsQuery bStart bEnd aStart aEnd = false ∧
      isTimeRangeOverlap sa ea sb eb = false) := by
  have hq : bookingOverlapsQuery bStart bEnd aStart aEnd = true ↔
      (aStart < bEnd ∧ bStart < aEnd) := by
    unfold bookingOverlapsQuery
    simp only [Bool.or_eq_true, Bool.and_eq_true, decide_eq_true_eq]
    omega
  have hr : isTimeRangeOverlap sa ea sb eb = true ↔
      (aStart < bEnd ∧ bStart < aEnd) := by
    unfold isTimeRangeOverlap
    rw [hsa, hea, hsb, heb]
    simp only [Bool.and_eq_true, decide_eq_true_eq]
  refine ⟨hq, hr, ?_⟩
  intro htouch
  constructor
  · rw [Bool.eq_false_iff, Ne, hq]
    omega
  · rw [Bool.eq_false_iff, Ne, hr]
    omega

/-- C4 witness: the equivalence at the touching intervals 10:00–10:30 and
10:30–11:00. -/
theorem C4_witness :
    (bookingOverlapsQuery 630 660 600 630 = true ↔
      ((600 : Int) < 660 ∧ (630 : Int) < 630)) ∧
    (isTimeRangeOverlap "10:00" "10:30" "10:30" "11:00" = true ↔
      ((600 : Int) < 660 ∧ (630 : Int) < 630)) ∧
    (((660 : Int) = 600 ∨ (630 : Int) = 630) →
      bookingOverlapsQuery 630 660 600 630 = false ∧
      isTimeRangeOverlap "10:00" "10:30" "10:30" "11:00" = false) :=
  C4_overlap_equiv 600 630 630 660 "10:00" "10:30" "10:30" "11:00"
    (by decide) (by decide) (by decide) (by decide) (by decide) (by decide)

/-! ### Claim C5 -/

/-- C5 counterexample: in `dbC5` the only booking has status "completed",
yet `checkBarberAvailability` reports A unavailable at that interval —
refuting "completed bookings do not participate either". -/
theorem C5_counterexample :
    dbC5.bookings = [⟨"b1", "s", "A", "svc", 600, 630, "completed"⟩] ∧
    (checkBarberAvailability dbC5 "s" "A" 600 630 none).isAvailable = false := by
  decide

/-- C5 (amended): in every availability or conflict check, the overlap
candidates are exactly the staff member's bookings with
`status ≠ "cancelled"` — confirmed AND completed bookings both
participate; cancelled bookings never do.  This holds for the conflict
query of `checkBarberAvailability` and for the CalendarService checks
(`getExistingBookings`, `isTimeSlotAvailable`): each selects only
non-cancelled bookings structurally, and prepending a cancelled booking
changes none of their results. -/
theorem C5_amended (db : DB) (sid bid : String) (s e : Int)
    (ex : Option String) (date : Int) (ids : List String) :
    (∀ bk ∈ conflictingBookings db sid bid s e ex,
      bk.storeId = sid ∧ bk.barberId = bid ∧ bk.status ≠ "cancelled") ∧
    (∀ bk ∈ CalendarService.getExistingBookings db sid date ids,
      bk.status ≠ "cancelled") ∧
    (∀ bk : Booking, bk.status = "cancelled" →
      checkBarberAvailability { db with bookings := bk :: db.bookings }
          sid bid s e ex =
        checkBarberAvailability db sid bid s e ex ∧
      CalendarService.getExistingBookings
          { db with bookings := bk :: db.bookings } sid date ids =
        CalendarService.getExistingBookings db sid date ids ∧
      CalendarService.isTimeSlotAvailable
          { db with bookings := bk :: db.bookings } sid bid s e =
        CalendarService.isTimeSlotAvailable db sid bid s e) := by
  refine ⟨?_, ?_, ?_⟩
  · intro bk h
    obtain ⟨_, h1, h2, h3, _, _⟩ := mem_conflictingBookings h
    exact ⟨h1, h2, h3⟩
  · intro bk h
    unfold CalendarService.getExistingBookings at h
    rw [List.mem_filter] at h
    obtain ⟨-, hp⟩ := h
    simp only [Bool.and_eq_true, bne_iff_ne, ne_eq] at hp
    exact hp.1.1.2
  · intro bk hcanc
    refine ⟨?_, ?_, ?_⟩
    · have hconf :
          conflictingBookings { db with bookings := bk :: db.bookings }
              sid bid s e ex =
            conflictingBookings db sid bid s e ex := by
        unfold conflictingBookings
        simp [List.filter_cons, hcanc]
      unfold checkBarberAvailability
      simp only [hconf]
    · unfold CalendarService.getExistingBookings
      show List.filter _ (bk :: db.bookings) = _
      rw [List.filter_cons]
      simp [hcanc]
    · have hfil : List.filter (fun b => b.storeId == sid &&
          b.barberId == bid && b.status != "cancelled" &&
          bookingOverlapsQuery b.startTime b.endTime s e)
          (({ db with bookings := bk :: db.bookings } : DB).bookings) =
          List.filter (fun b => b.storeId == sid && b.barberId == bid &&
            b.status != "cancelled" &&
            bookingOverlapsQuery b.startTime b.endTime s e) db.bookings := by
        show List.filter _ (bk :: db.bookings) = _
        rw [List.filter_cons]
        simp [hcanc]
      unfold CalendarService.isTimeSlotAvailable
      simp only [hfil]
      rfl

/-- C5 witness: prepending a cancelled booking to `dbC5` changes neither
the availability verdict nor the CalendarService queries. -/
theorem C5_witness :
    checkBarberAvailability
        { dbC5 with
          bookings := ⟨"b9", "s", "A", "svc", 600, 630, "cancelled"⟩ ::
            dbC5.bookings } "s" "A" 600 630 none =
      checkBarberAvailability dbC5 "s" "A" 600 630 none ∧
    CalendarService.getExistingBookings
        { dbC5 with
          bookings := ⟨"b9", "s", "A", "svc", 600, 630, "cancelled"⟩ ::
            dbC5.bookings } "s" 0 ["A"] =
      CalendarService.getExistingBookings dbC5 "s" 0 ["A"] ∧
    CalendarService.isTimeSlotAvailable
        { dbC5 with
          bookings := ⟨"b9", "s", "A", "svc", 600, 630, "cancelled"⟩ ::
            dbC5.bookings } "s" "A" 600 630 =
      CalendarService.isTimeSlotAvailable dbC5 "s" "A" 600 630 :=
  (C5_amended dbC5 "s" "A" 600 630 none 0 ["A"]).2.2
    ⟨"b9", "s", "A", "svc", 600, 630, "cancelled"⟩ rfl

/-! ### Claim C6 -/

namespace CalendarService

/-- Every slot generated by the per-barber loop carries that barber's id. -/
theorem generateSlotsLoop_barberId (barber : Barber)
    (businessEnd serviceDuration : Int) (existing : List Booking) :
    ∀ (currentTime : Int),
      ∀ slot ∈ generateSlotsLoop barber businessEnd serviceDuration existing
        currentTime, slot.barberId = barber.id := by
  intro currentTime
  induction currentTime using
      generateSlotsLoop.induct barber businessEnd serviceDuration existing with
  | case1 x hlt slotEnd hle ih =>
    intro slot hs
    rw [generateSlotsLoop] at hs
    rw [dif_pos hlt] at hs
    simp only at hs
    rw [if_pos (show x + serviceDuration ≤ businessEnd from hle)] at hs
    rcases List.mem_cons.mp hs with h | h
    · rw [h]
    · exact ih slot h
  | case2 x hlt slotEnd hle ih =>
    intro slot hs
    rw [generateSlotsLoop] at hs
    rw [dif_pos hlt] at hs
    simp only at hs
    rw [if_neg (show ¬ x + serviceDuration ≤ businessEnd from hle)] at hs
    exact ih slot hs
  | case3 x hlt =>
    intro slot hs
    rw [generateSlotsLoop] at hs
    rw [dif_neg hlt] at hs
    cases hs

/-- Every slot of `generateBarberTimeSlots` carries that barber's id. -/
theorem generateBarberTimeSlots_barberId {barber : Barber} {date : Int}
    {openT closeT : String} {d : Int} {existing : List Booking}
    {slot : TimeSlot}
    (h : slot ∈ generateBarberTimeSlots barber date openT closeT d existing) :
    slot.barberId = barber.id := by
  unfold generateBarberTimeSlots at h
  cases h1 : timeToMinutes openT with
  | none => rw [h1] at h; cases h
  | some o =>
    cases h2 : timeToMinutes closeT with
    | none => rw [h1, h2] at h; cases h
    | some c =>
      rw [h1, h2] at h
      exact generateSlotsLoop_barberId barber _ _ _ _ slot h

end CalendarService

set_option maxRecDepth 8000 in
/-- C6 counterexample: on `dbC6` (one active barber, hours 09:00–17:00,
30-minute service) the day listing `CalendarService.getAvailableTimeSlots`
succeeds and returns 16 slots — more than 5 — refuting the claimed 5-entry
bound for the slot-listing operation. -/
theorem C6_counterexample :
    ((CalendarService.getAvailableTimeSlots dbC6
        ⟨"s", 0, "svc", none, none⟩).getD []).length = 16 ∧
    5 < ((CalendarService.getAvailableTimeSlots dbC6
        ⟨"s", 0, "svc", none, none⟩).getD []).length ∧
    (CalendarService.getAvailableTimeSlots dbC6
        ⟨"s", 0, "svc", none, none⟩).isSome = true := by
  have h1 : CalendarService.getAvailableTimeSlots dbC6
      ⟨"s", 0, "svc", none, none⟩ =
      some ((CalendarService.generateBarberTimeSlots ⟨"A", "s", "Alice", true⟩
        0 "09:00" "17:00" 30 [] ++ []).mergeSort
        (fun a b => a.startTime ≤ b.startTime)) := rfl
  have hlen : ((CalendarService.generateBarberTimeSlots
      ⟨"A", "s", "Alice", true⟩ 0 "09:00" "17:00" 30 [] ++ []).mergeSort
      (fun a b => a.startTime ≤ b.startTime)).length = 16 := by
    rw [List.length_mergeSort, List.length_append]
    have h2 : (CalendarService.generateBarberTimeSlots
        ⟨"A", "s", "Alice", true⟩ 0 "09:00" "17:00" 30 []).length = 16 := by
      have ht1 : timeToMinutes "09:00" = some 540 := by decide
      have ht2 : timeToMinutes "17:00" = some 1020 := by decide
      unfold CalendarService.generateBarberTimeSlots
      rw [ht1, ht2]
      norm_num only
      simp +decide [CalendarService.generateSlotsLoop]
    rw [h2]
    rfl
  refine ⟨?_, ?_, ?_⟩
  · rw [h1, Option.getD_some, hlen]
  · rw [h1, Option.getD_some, hlen]
    norm_num
  · rw [h1]
    rfl

/-- C6 (amended): the alternative search returns at most 5 entries, every
one naming an active roster barber; the day listing
`CalendarService.getAvailableTimeSlots` also only ever emits slots of
active barbers, but its length is bounded by the business-hours window,
not by 5. -/
theorem C6_amended (db : DB) (sid : String) (ps pe : Int)
    (ex : Option String) (query : CalendarService.AvailabilityQuery) :
    ((findAlternativeBarbers db sid ps pe ex).length ≤ 5 ∧
      ∀ alt ∈ findAlternativeBarbers db sid ps pe ex,
        ∃ b ∈ db.barbers, b.id = alt.barberId ∧ b.isActive = true) ∧
    (∀ l, CalendarService.getAvailableTimeSlots db query = some l →
      ∀ slot ∈ l, ∃ b ∈ db.barbers, b.id = slot.barberId ∧
        b.isActive = true) := by
  refine ⟨⟨?_, ?_⟩, ?_⟩
  · unfold findAlternativeBarbers
    exact List.length_take_le 5 _
  · intro alt h
    obtain ⟨_, b, hb, hid, _, hact⟩ := mem_findAlternativeBarbers h
    exact ⟨b, hb, hid, hact⟩
  · intro l hl slot hslot
    unfold CalendarService.getAvailableTimeSlots at hl
    cases hsvc : db.services.find? (fun s =>
        s.id == query.serviceId && s.storeId == query.storeId &&
          s.isActive) with
    | none => rw [hsvc] at hl; cases hl
    | some service =>
      rw [hsvc] at hl
      simp only at hl
      cases hbh : CalendarService.getBusinessHours db query.storeId
          query.date with
      | none =>
        simp only [hbh] at hl
        rw [Option.some.injEq] at hl
        subst hl
        cases hslot
      | some oc =>
        simp only [hbh] at hl
        by_cases hlen : (CalendarService.getAvailableBarbers db query.storeId
            query.barberId).length = 0
        · simp only [hlen, if_true] at hl
          rw [Option.some.injEq] at hl
          subst hl
          cases hslot
        · simp only [hlen, if_false] at hl
          rw [Option.some.injEq] at hl
          subst hl
          rw [List.mem_mergeSort, List.mem_flatMap] at hslot
          obtain ⟨b, hbmem, hbslot⟩ := hslot
          unfold CalendarService.getAvailableBarbers at hbmem
          rw [List.mem_filter] at hbmem
          obtain ⟨hbdb, hbp⟩ := hbmem
          simp only [Bool.and_eq_true, beq_iff_eq] at hbp
          have hbid := CalendarService.generateBarberTimeSlots_barberId hbslot
          exact ⟨b, hbdb, hbid.symm, hbp.1.2⟩

/-- C6 witness: the amended theorem applied to the single alternative that
`findAlternativeBarbers` returns on `dbC6` at 10:00–10:30. -/
theorem C6_witness :
    ∃ b ∈ dbC6.barbers, b.id = "A" ∧ b.isActive = true :=
  (C6_amended dbC6 "s" 600 630 none ⟨"s", 0, "svc", none, none⟩).1.2
    ⟨"A", "Alice", 600, 630⟩ (by decide)

/-! ### Claim C7 -/

/-- Characterisation of the string-level slot loop: for a positive step it
yields exactly the ascending lattice of start times below the fit bound. -/
theorem slotsLoop_spec (c d s : Int) (hs : 0 < s) :
    ∀ m : Int, ∃ K : ℕ,
      TimeUtils.slotsLoop c d s m =
        (List.range K).map (fun k : ℕ => minutesToTime (m + (k : ℤ) * s)) ∧
      (∀ k : ℕ, k < K → m + (k : ℤ) * s + d ≤ c) ∧
      (∀ k : ℕ, m + (k : ℤ) * s + d ≤ c → k < K) := by
  intro m
  induction m using TimeUtils.slotsLoop.induct c d s with
  | case1 x hcond ih =>
    obtain ⟨K, hKeq, hKlt, hKge⟩ := ih
    refine ⟨K + 1, ?_, ?_, ?_⟩
    · rw [TimeUtils.slotsLoop, dif_pos hcond, hKeq, List.range_succ_eq_map,
        List.map_cons, List.map_map]
      congr 1
      · norm_num
      · apply List.map_congr_left
        intro k _
        simp only [Function.comp_apply]
        congr 1
        push_cast
        ring
    · intro k hk
      cases k with
      | zero => simpa using hcond.1
      | succ j =>
        have hj : j < K := by omega
        have hle := hKlt j hj
        have heq : x + ((j + 1 : ℕ) : ℤ) * s + d = x + s + (j : ℤ) * s + d := by
          push_cast
          ring
        rw [heq]
        exact hle
    · intro k hk
      cases k with
      | zero => omega
      | succ j =>
        have heq : x + s + (j : ℤ) * s + d = x + ((j + 1 : ℕ) : ℤ) * s + d := by
          push_cast
          ring
        have hle : x + s + (j : ℤ) * s + d ≤ c := by
          rw [heq]
          exact hk
        have := hKge j hle
        omega
  | case2 x hcond =>
    have hnc : ¬ x + d ≤ c := fun h => hcond ⟨h, hs⟩
    refine ⟨0, ?_, ?_, ?_⟩
    · rw [TimeUtils.slotsLoop, dif_neg hcond]
      simp
    · intro k hk
      omega
    · intro k hk
      exfalso
      have hks : 0 ≤ (k : ℤ) * s := mul_nonneg (Int.natCast_nonneg k) hs.le
      omega

/-- C7: the slot enumerator of src/src/types/index.ts yields exactly the
ascending lattice `open + k*step` of start times whose slot fits before
close; it is empty (without failure) when the day is closed or the
duration exceeds the window; and on hours 09:00–17:00 with a 480-minute
service and 30-minute step it yields exactly the slot "09:00". -/
theorem C7_slot_enumerator (bh : BusinessHoursRec) (d s o c : Int)
    (ho : timeToMinutes bh.openTime = some o)
    (hc : timeToMinutes bh.closeTime = some c)
    (hs : 0 < s) :
    (bh.isClosed = true → TimeUtils.getAvailableTimeSlots bh d s = []) ∧
    (bh.isClosed = false →
      ∃ K : ℕ, TimeUtils.getAvailableTimeSlots bh d s =
          (List.range K).map (fun k : ℕ => minutesToTime (o + (k : ℤ) * s)) ∧
        (∀ k : ℕ, k < K → o + (k : ℤ) * s + d ≤ c) ∧
        (∀ k : ℕ, o + (k : ℤ) * s + d ≤ c → k < K)) ∧
    (bh.isClosed = false → d > c - o →
      TimeUtils.getAvailableTimeSlots bh d s = []) ∧
    TimeUtils.getAvailableTimeSlots ⟨"s", 0, "09:00", "17:00", false⟩ 480 30 =
      ["09:00"] := by
  have hmain : bh.isClosed = false →
      ∃ K : ℕ, TimeUtils.getAvailableTimeSlots bh d s =
          (List.range K).map (fun k : ℕ => minutesToTime (o + (k : ℤ) * s)) ∧
        (∀ k : ℕ, k < K → o + (k : ℤ) * s + d ≤ c) ∧
        (∀ k : ℕ, o + (k : ℤ) * s + d ≤ c → k < K) := by
    intro hcl
    unfold TimeUtils.getAvailableTimeSlots
    rw [hcl, ho, hc]
    simp only [Bool.false_eq_true, if_false]
    exact slotsLoop_spec c d s hs o
  refine ⟨?_, hmain, ?_, ?_⟩
  · intro hcl
    unfold TimeUtils.getAvailableTimeSlots
    rw [hcl]
    rfl
  · intro hcl hd
    obtain ⟨K, hKeq, hKlt, _⟩ := hmain hcl
    have hK0 : K = 0 := by
      by_contra h0
      have h00 := hKlt 0 (by omega)
      simp at h00
      omega
    rw [hKeq, hK0]
    rfl
  · have hconc : TimeUtils.getAvailableTimeSlots
        ⟨"s", 0, "09:00", "17:00", false⟩ 480 30 =
        TimeUtils.slotsLoop 1020 480 30 540 := rfl
    rw [hconc]
    simp +decide [TimeUtils.slotsLoop]

/-- C7 witness: the enumerator theorem at hours 09:00–17:00, duration 480,
step 30 (minutes 540 and 1020). -/
theorem C7_witness :
    ((⟨"s", 0, "09:00", "17:00", false⟩ : BusinessHoursRec).isClosed = true →
      TimeUtils.getAvailableTimeSlots ⟨"s", 0, "09:00", "17:00", false⟩
        480 30 = []) ∧
    ((⟨"s", 0, "09:00", "17:00", false⟩ : BusinessHoursRec).isClosed = false →
      ∃ K : ℕ, TimeUtils.getAvailableTimeSlots
          ⟨"s", 0, "09:00", "17:00", false⟩ 480 30 =
          (List.range K).map
            (fun k : ℕ => minutesToTime (540 + (k : ℤ) * 30)) ∧
        (∀ k : ℕ, k < K → (540 : ℤ) + (k : ℤ) * 30 + 480 ≤ 1020) ∧
        (∀ k : ℕ, (540 : ℤ) + (k : ℤ) * 30 + 480 ≤ 1020 → k < K)) ∧
    ((⟨"s", 0, "09:00", "17:00", false⟩ : BusinessHoursRec).isClosed = false →
      (480 : Int) > 1020 - 540 →
      TimeUtils.getAvailableTimeSlots ⟨"s", 0, "09:00", "17:00", false⟩
        480 30 = []) ∧
    TimeUtils.getAvailableTimeSlots ⟨"s", 0, "09:00", "17:00", false⟩ 480 30 =
      ["09:00"] :=
  C7_slot_enumerator ⟨"s", 0, "09:00", "17:00", false⟩ 480 30 540 1020
    (by decide) (by decide) (by decide)

/-! ### Claim C8 -/

/-- C8: with `excludeBookingId = B` no overlap test counts booking B
itself — every booking the conflict query returns has an id other than B —
and consequently, when every non-cancelled overlapping booking of the
(store, barber) pair IS booking B (the reschedule-to-own-time situation),
the availability check succeeds. -/
theorem C8_exclude_self (db : DB) (sid bid : String) (s e : Int)
    (B : String) :
    (∀ bk ∈ conflictingBookings db sid bid s e (some B), bk.id ≠ B) ∧
    ((∃ b, db.barbers.find? (fun b => b.id == bid && b.storeId == sid) =
        some b ∧ b.isActive = true) →
      (∀ bk ∈ db.bookings, bk.storeId = sid → bk.barberId = bid →
        bk.status ≠ "cancelled" →
        bookingOverlapsQuery bk.startTime bk.endTime s e = true →
        bk.id = B) →
      (checkBarberAvailability db sid bid s e (some B)).isAvailable = true) := by
  constructor
  · intro bk h
    obtain ⟨_, _, _, _, _, hex⟩ := mem_conflictingBookings h
    exact hex B rfl
  · rintro ⟨b, hfind, hact⟩ hall
    have hnil : conflictingBookings db sid bid s e (some B) = [] := by
      cases hcb : conflictingBookings db sid bid s e (some B) with
      | nil => rfl
      | cons bk tl =>
        exfalso
        have hmem : bk ∈ conflictingBookings db sid bid s e (some B) := by
          rw [hcb]
          exact List.mem_cons_self bk tl
        obtain ⟨hbk, h1, h2, h3, h4, hex⟩ := mem_conflictingBookings hmem
        exact hex B rfl (hall bk hbk h1 h2 h3 h4)
    unfold checkBarberAvailability
    rw [hfind]
    simp [hact, hnil]

/-- C8 witness: in `dbC8`, rechecking booking "b1"'s own interval with
`excludeBookingId = "b1"` reports the barber available. -/
theorem C8_witness :
    (checkBarberAvailability dbC8 "s" "A" 600 630 (some "b1")).isAvailable =
      true :=
  (C8_exclude_self dbC8 "s" "A" 600 630 "b1").2
    ⟨⟨"A", "s", "Alice", true⟩, rfl, rfl⟩ (by decide)

/-! ### Claim C9 -/

/-- C9 counterexample: duration 1 is an integer in [1, 480], yet
`validateServiceTime` rejects it (multiple-of-15 rule) — refuting "every
integer duration d with 1 <= d <= 480 is reported valid". -/
theorem C9_counterexample :
    validateServiceTime 1 = ⟨false, some "服務時間必須是15分鐘的倍數"⟩ := by
  decide

/-- C9 (amended): `validateServiceTime` accepts exactly the integer
multiples of 15 in [15, 480]; non-integers and out-of-range durations are
rejected, and so is every integer not divisible by 15. -/
theorem C9_amended (d : ℚ) :
    (validateServiceTime d).isValid = true ↔
      (d.den = 1 ∧ 15 ≤ d.num ∧ d.num ≤ 480 ∧ d.num % 15 = 0) := by
  unfold validateServiceTime
  split_ifs with h1 h2 h3 h4
  · simp [h1]
  · have hnum : d.num ≤ 0 := Rat.num_nonpos.mpr h2
    simp only [show (false = true) = False by simp, false_iff]
    rintro ⟨-, h15, -, -⟩
    omega
  · have hden : d.den = 1 := by omega
    have hcast : (d.num : ℚ) = d := (Rat.den_eq_one_iff d).mp hden
    have hnum : 480 < d.num := by
      have : (480 : ℚ) < (d.num : ℚ) := by rw [hcast]; exact h3
      exact_mod_cast this
    simp only [show (false = true) = False by simp, false_iff]
    rintro ⟨-, -, h480, -⟩
    omega
  · simp only [show (false = true) = False by simp, false_iff]
    rintro ⟨-, -, -, h15⟩
    exact h4 h15
  · have hden : d.den = 1 := by omega
    have hpos : 0 < d.num := Rat.num_pos.mpr (by exact lt_of_not_le h2)
    have hcast : (d.num : ℚ) = d := (Rat.den_eq_one_iff d).mp hden
    have h480 : d.num ≤ 480 := by
      have : (d.num : ℚ) ≤ (480 : ℚ) := by rw [hcast]; exact le_of_not_lt h3
      exact_mod_cast this
    have h15 : d.num % 15 = 0 := by omega
    simp only [true_iff]
    exact ⟨hden, by omega, h480, h15⟩

/-! ### Claim C10 -/

/-- `validateBookingTime` accepts exactly the window
[now + 30 min, now + 90 days]. -/
theorem validateBookingTime_isValid_iff (now t : Int) :
    (validateBookingTime now t).isValid = true ↔
      (now + 30 ≤ t ∧ t ≤ now + 129600) := by
  unfold validateBookingTime
  dsimp only
  split_ifs with ha hb
  · simp
    omega
  · simp
    omega
  · simp
    omega

/-- C10: booking creation and start-time-changing updates validate the
requested start against [now + 30 min, now + 90 days] before any conflict
check: the conflict gate is only ever reached inside the window, and an
out-of-window request (with a resolvable booking/service) fails with the
validator's error — for creation and for updates alike — with the
conflict check never performed. -/
theorem C10_time_window :
    (∀ now t : Int, (validateBookingTime now t).isValid = true ↔
      (now + 30 ≤ t ∧ t ≤ now + 129600)) ∧
    (∀ (db : DB) (now : Int) (req : BookingService.CreateBookingRequest),
      (BookingService.createBooking db now req).2 = true →
      now + 30 ≤ req.startTime ∧ req.startTime ≤ now + 129600) ∧
    (∀ (db : DB) (now : Int) (req : BookingService.CreateBookingRequest),
      (db.services.find? (fun s => s.id == req.serviceId &&
        s.storeId == req.storeId && s.isActive)).isSome = true →
      ¬(now + 30 ≤ req.startTime ∧ req.startTime ≤ now + 129600) →
      BookingService.createBooking db now req =
        (⟨false, (validateBookingTime now req.startTime).error, none⟩,
          false)) ∧
    (∀ (db : DB) (now : Int) (req : BookingService.UpdateBookingRequest)
      (t : Int), req.startTime = some t →
      (BookingService.updateBooking db now req).2 = true →
      now + 30 ≤ t ∧ t ≤ now + 129600) ∧
    (∀ (db : DB) (now : Int) (req : BookingService.UpdateBookingRequest)
      (t : Int) (existing : Booking), req.startTime = some t →
      db.bookings.find? (fun bk => bk.id == req.bookingId) = some existing →
      (match req.serviceId with
       | some sid => db.services.find? (fun sv : Service => sv.id == sid &&
           sv.storeId == existing.storeId && sv.isActive)
       | none =>
           db.services.find?
             (fun sv : Service => sv.id == existing.serviceId)).isSome
        = true →
      ¬(now + 30 ≤ t ∧ t ≤ now + 129600) →
      BookingService.updateBooking db now req =
        (⟨false, (validateBookingTime now t).error, none⟩, false)) := by
  refine ⟨validateBookingTime_isValid_iff, ?_, ?_, ?_, ?_⟩
  · intro db now req hflag
    unfold BookingService.createBooking at hflag
    cases hsvc : db.services.find? (fun s => s.id == req.serviceId &&
        s.storeId == req.storeId && s.isActive) with
    | none => rw [hsvc] at hflag; cases hflag
    | some service =>
      rw [hsvc] at hflag
      simp only at hflag
      by_cases hv : (validateBookingTime now req.startTime).isValid = true
      · exact (validateBookingTime_isValid_iff now req.startTime).mp hv
      · rw [Bool.not_eq_true] at hv
        simp [hv] at hflag
  · intro db now req hsvc hwin
    obtain ⟨service, hfind⟩ := Option.isSome_iff_exists.mp hsvc
    have hv : (validateBookingTime now req.startTime).isValid = false := by
      cases hvv : (validateBookingTime now req.startTime).isValid
      · rfl
      · exact absurd
          ((validateBookingTime_isValid_iff now req.startTime).mp hvv) hwin
    unfold BookingService.createBooking
    rw [hfind]
    simp [hv]
  · intro db now req t hst hflag
    unfold BookingService.updateBooking at hflag
    cases hbk : db.bookings.find? (fun bk => bk.id == req.bookingId) with
    | none => rw [hbk] at hflag; cases hflag
    | some existing =>
      rw [hbk] at hflag
      simp only [hst, Option.isSome_some, Bool.or_true, Bool.true_or,
        if_true] at hflag
      cases hsid : req.serviceId with
      | some sid =>
        rw [hsid] at hflag
        simp only at hflag
        cases hfs : db.services.find? (fun sv => sv.id == sid &&
            sv.storeId == existing.storeId && sv.isActive) with
        | none => rw [hfs] at hflag; cases hflag
        | some svc =>
          rw [hfs] at hflag
          by_cases hv : (validateBookingTime now t).isValid = true
          · exact (validateBookingTime_isValid_iff now t).mp hv
          · rw [Bool.not_eq_true] at hv
            simp [hv] at hflag
      | none =>
        rw [hsid] at hflag
        simp only at hflag
        cases hfs : db.services.find?
            (fun sv => sv.id == existing.serviceId) with
        | none => rw [hfs] at hflag; cases hflag
        | some svc =>
          rw [hfs] at hflag
          by_cases hv : (validateBookingTime now t).isValid = true
          · exact (validateBookingTime_isValid_iff now t).mp hv
          · rw [Bool.not_eq_true] at hv
            simp [hv] at hflag
  · intro db now req t existing hst hfind hsvc hwin
    have hv : (validateBookingTime now t).isValid = false := by
      cases hvv : (validateBookingTime now t).isValid
      · rfl
      · exact absurd ((validateBookingTime_isValid_iff now t).mp hvv) hwin
    unfold BookingService.updateBooking
    rw [hfind]
    cases hsid : req.serviceId with
    | some sid =>
      simp only [hsid] at hsvc
      obtain ⟨svc, hfs⟩ := Option.isSome_iff_exists.mp hsvc
      simp [hst, hsid, hfs, hv]
    | none =>
      simp only [hsid] at hsvc
      obtain ⟨svc, hfs⟩ := Option.isSome_iff_exists.mp hsvc
      simp [hst, hsid, hfs, hv]

/-- C10 witness: the creation gate applied to `dbC10` at `now = 0` with a
request for 01:00 (minute 60); the conflict check is reached, so the start
lies in the window. -/
theorem C10_witness : (0 : Int) + 30 ≤ 60 ∧ (60 : Int) ≤ 0 + 129600 :=
  C10_time_window.2.1 dbC10 0 ⟨"s", some "A", "svc", 60, "N"⟩ (by decide)

end BookingSystem
